import Mathlib

/-!
Verification of the letter-shell line-editing and command-dispatch core
(src/shell.c).

The C code is shallowly embedded: the `SHELL_TypeDef` struct becomes a Lean
structure, each C function becomes a pure function from the old state to the
new state paired with the list of effects it emitted through the injected
display sink, and the in-place array loops become structurally faithful
recursive functions over `List Nat` (byte value 0 plays the role of the C
string terminator).  The configuration macros `SHELL_COMMAND_MAX_LENGTH` and
`SHELL_HISTORY_MAX_NUMBER` live in the header, which is not part of the
sources; they are passed explicitly as a `ShellConfig`.  The build options
are the defaults the code documents: `SHELL_AUTO_PRASE == 0`,
`SHELL_DISPLAY_RETURN == 0`, `SHELL_LONG_HELP == 1` with no tick source
(`SHELL_GET_TICK()` of 0, so the time-gated double-tab block never fires).
-/

namespace LetterShell

/-- Bytes of a Lean string literal (used for the C string literals). -/
def strBytes (s : String) : List Nat := s.toList.map Char.toNat

/-- Contents of a C string stored in a byte array: the bytes up to the first
0 terminator. -/
def cstr (l : List Nat) : List Nat := l.takeWhile (fun b => b != 0)

/-- The C string a `char *` pointing at offset `i` of a buffer denotes. -/
def tokenAt (buf : List Nat) (i : Nat) : List Nat := cstr (buf.drop i)

/-- Sequential byte-wise store of `xs` into `dest` starting at index `i`
(the model of a C copy loop; all claims below keep the writes in bounds). -/
def listWrite : List Nat → Nat → List Nat → List Nat
  | dest, _, [] => dest
  | dest, i, x :: xs => listWrite (dest.set i x) (i + 1) xs

/-- `shellStringCopy` (shell.c:129): copy the C string in `src` (content and
terminator) into `dest`; returns the new `dest` and the copied length. -/
def shellStringCopy (dest src : List Nat) : List Nat × Nat :=
  (listWrite dest 0 (cstr src ++ [0]), (cstr src).length)

/-- `shellStringCompare` (shell.c:148): length of the common prefix of two C
strings (the end of the list doubles as a terminator). -/
def shellStringCompare : List Nat → List Nat → Nat
  | a :: ta, b :: tb =>
    if a = 0 ∨ b = 0 then 0
    else if a = b then shellStringCompare ta tb + 1 else 0
  | _, _ => 0

/-- One observable effect through the injected byte sink: `shellDisplay` of a
string, `shellDisplayByte` of one byte, or the (external) invocation of a
command handler or of the help routine by the dispatcher. -/
inductive OutEvent where
  | str (s : List Nat)
  | byte (b : Nat)
  | invoke (name : List Nat) (args : List (List Nat))
  | invokeHelp (args : List (List Nat))
deriving DecidableEq

/-- The `inputMode` values `SHELL_IN_NORMAL` / `SHELL_ANSI_ESC` /
`SHELL_ANSI_CSI`.  The enum lives in the header; modelled from the spec's
three-state escape machine. -/
inductive InputMode where
  | normal
  | ansiEsc
  | ansiCsi
deriving DecidableEq

/-- Configuration macros from the header: `SHELL_COMMAND_MAX_LENGTH`
(`cmdMax`, capacity of `buffer` and of each history row) and
`SHELL_HISTORY_MAX_NUMBER` (`histMax`, rows of the history ring). -/
structure ShellConfig where
  cmdMax : Nat
  histMax : Nat
deriving DecidableEq

/-- `SHELL_CommandTypeDef`: command name and description.  The handler
pointer is abstracted away: the dispatcher reports a handler call as an
`OutEvent.invoke` effect (handlers are external collaborators). -/
structure SHELL_CommandTypeDef where
  name : List Nat
  desc : List Nat
deriving DecidableEq

/-- `SHELL_TypeDef` (header struct): the per-instance state shell.c touches.
`buffer` has length `cmdMax`; `history` holds `histMax` rows of length
`cmdMax`; `param` records the token start offsets (the C code stores
`char *` pointers into `buffer`).  `historyFlag` is kept as a `Nat` (the
code only ever stores 0 ≤ values below `histMax` in it); the places where
the C evaluates `historyFlag - 1` are modelled in `Int`, see
`historyCmpIndex`. -/
structure SHELL_TypeDef where
  command : List Nat
  buffer : List Nat
  length : Nat
  cursor : Nat
  param : List Nat
  history : List (List Nat)
  historyCount : Nat
  historyFlag : Nat
  historyOffset : Int
  inputMode : InputMode
  tabFlag : Bool
  isActive : Bool
  commandBase : List SHELL_CommandTypeDef
deriving DecidableEq

/-- `shellText[TEXT_CMD_TOO_LONG]` (shell.c:56), typo faithful to source. -/
def TEXT_CMD_TOO_LONG : List Nat := strBytes "\r\nWarnig: Command is too long\r\n"

/-- `shellText[TEXT_CMD_NONE]` (shell.c:55). -/
def TEXT_CMD_NONE : List Nat := strBytes "Command not found\r\n"

/-- `shellDelete` (shell.c:171): erase `n` characters on the terminal. -/
def shellDelete (n : Nat) : List OutEvent :=
  List.replicate n (OutEvent.str (strBytes "\x08 \x08"))

/-- `shellClearLine` (shell.c:184): overwrite the tail right of the cursor
with spaces, then erase the whole visible line. -/
def shellClearLine (s : SHELL_TypeDef) : List OutEvent :=
  List.replicate (s.length - s.cursor) (OutEvent.byte 32) ++ shellDelete s.length

/-- The index `historyFlag - 1` used by `shellHistoryAdd`'s duplicate check
(shell.c:201), as the mathematical integer the C index expression denotes. -/
def historyCmpIndex (s : SHELL_TypeDef) : Int := (s.historyFlag : Int) - 1

/-- Read `history[i]` at an integer index.  An index outside
`[0, history.length)` is an out-of-bounds access in the C code (undefined
behaviour); the model returns `[]` there. -/
def historyReadInt (h : List (List Nat)) (i : Int) : List Nat :=
  if 0 ≤ i ∧ i < (h.length : Int) then h.getD i.toNat [] else []

/-- `shellHistoryAdd` (shell.c:198): reset the recall offset, suppress an
immediate duplicate of the previous entry, otherwise store at `historyFlag`,
advance the flag when the copy was non-empty, saturate `historyCount`, and
wrap the flag at `histMax`. -/
def shellHistoryAdd (cfg : ShellConfig) (s : SHELL_TypeDef) : SHELL_TypeDef :=
  let s0 := { s with historyOffset := 0 }
  if cstr (historyReadInt s0.history (historyCmpIndex s0)) = cstr s0.buffer then
    s0
  else
    let r := shellStringCopy (s0.history.getD s0.historyFlag []) s0.buffer
    let hist1 := s0.history.set s0.historyFlag r.1
    let flag1 := if r.2 ≠ 0 then s0.historyFlag + 1 else s0.historyFlag
    let count1 := if s0.historyCount + 1 > cfg.histMax then cfg.histMax
      else s0.historyCount + 1
    let flag2 := if flag1 ≥ cfg.histMax then 0 else flag1
    { s0 with history := hist1, historyCount := count1, historyFlag := flag2 }

/-- Common tail of `shellHistory` (shell.c:250-265): clear the visible line
and show the entry addressed by the (already updated) `historyOffset`. -/
def shellHistoryShow (cfg : ShellConfig) (s : SHELL_TypeDef) :
    SHELL_TypeDef × List OutEvent :=
  let out0 := shellClearLine s
  if s.historyOffset = 0 then
    ({ s with cursor := 0, length := 0 }, out0)
  else
    let idx := (((s.historyFlag : Int) + (cfg.histMax : Int) + s.historyOffset) %
      (cfg.histMax : Int)).toNat
    let r := shellStringCopy s.buffer (s.history.getD idx [])
    if r.2 = 0 then
      ({ s with buffer := r.1, length := 0 }, out0)
    else
      ({ s with buffer := r.1, length := r.2, cursor := r.2 },
       out0 ++ [OutEvent.str (cstr r.1)])

/-- `shellHistory` (shell.c:225): move the recall offset (0 = older with a
floor at `-max(historyCount, historyFlag)`, 1 = newer with early return when
it would pass 0), then redraw. -/
def shellHistory (cfg : ShellConfig) (s : SHELL_TypeDef) (dir : Nat) :
    SHELL_TypeDef × List OutEvent :=
  if dir = 0 then
    let bound : Int := -(max (s.historyCount : Int) (s.historyFlag : Int))
    let o1 : Int := if s.historyOffset ≤ bound then bound else s.historyOffset - 1
    shellHistoryShow cfg { s with historyOffset := o1 }
  else if dir = 1 then
    if s.historyOffset + 1 > 0 then ({ s with historyOffset := 0 }, [])
    else shellHistoryShow cfg { s with historyOffset := s.historyOffset + 1 }
  else (s, [])

/-- The right-shift loop of `shellNormal` mid-line insertion (shell.c:518):
`for (i = length - cursor; i > 0; i--) buffer[cursor+i] = buffer[cursor+i-1]`,
with `n` iterations remaining. -/
def insShift (buf : List Nat) (c : Nat) : Nat → List Nat
  | 0 => buf
  | n + 1 => insShift (buf.set (c + n + 1) (buf.getD (c + n) 0)) c n

/-- The left-shift loop of `shellBackspace` mid-line deletion (shell.c:388):
`for (i = 0; i < length - cursor; i++) buffer[cursor+i-1] = buffer[cursor+i]`,
with `i` the ascending loop counter and `k` iterations remaining. -/
def delShift (c : Nat) : List Nat → Nat → Nat → List Nat
  | buf, _, 0 => buf
  | buf, i, k + 1 => delShift c (buf.set (c + i - 1) (buf.getD (c + i) 0)) (i + 1) k

/-- `shellNormal` (shell.c:502): insert one byte at the cursor (byte 0 is
ignored; a full line is refused with a warning and a redraw, and the cursor
is moved to the end of the line). -/
def shellNormal (cfg : ShellConfig) (s : SHELL_TypeDef) (data : Nat) :
    SHELL_TypeDef × List OutEvent :=
  if data = 0 then (s, [])
  else if s.length < cfg.cmdMax - 1 then
    if s.length = s.cursor then
      ({ s with
          buffer := s.buffer.set s.length data
          length := s.length + 1
          cursor := s.cursor + 1 },
       [OutEvent.byte data])
    else
      let buf1 := (insShift s.buffer s.cursor (s.length - s.cursor)).set s.cursor data
      let len1 := s.length + 1
      let buf2 := buf1.set len1 0
      ({ s with buffer := buf2, length := len1, cursor := s.cursor + 1 },
       ((List.range' s.cursor (len1 - s.cursor)).map fun i =>
         OutEvent.byte (buf2.getD i 0)) ++
        List.replicate (len1 - (s.cursor + 1)) (OutEvent.byte 8))
  else
    ({ s with cursor := s.length },
     [OutEvent.str TEXT_CMD_TOO_LONG, OutEvent.str s.command,
      OutEvent.str (cstr s.buffer)])

/-- `shellBackspace` (shell.c:373): delete the byte before the cursor. -/
def shellBackspace (s : SHELL_TypeDef) : SHELL_TypeDef × List OutEvent :=
  if s.length = 0 then (s, [])
  else if s.cursor = s.length then
    let len1 := s.length - 1
    ({ s with length := len1, cursor := s.cursor - 1, buffer := s.buffer.set len1 0 },
     shellDelete 1)
  else if 0 < s.cursor then
    let buf1 := (delShift s.cursor s.buffer 0 (s.length - s.cursor)).set (s.length - 1) 0
    let len1 := s.length - 1
    let cur1 := s.cursor - 1
    ({ s with buffer := buf1, length := len1, cursor := cur1 },
     [OutEvent.byte 8] ++
       ((List.range' cur1 (len1 - cur1)).map fun i => OutEvent.byte (buf1.getD i 0)) ++
       [OutEvent.byte 32] ++ List.replicate (len1 - cur1 + 1) (OutEvent.byte 8))
  else (s, [])

/-- The tokenisation loop of `shellEnter` (shell.c:291-323), with
`SHELL_AUTO_PRASE == 0`: splits on space/tab/comma outside quotes, zeroes
delimiters and quote characters in place, records each token start offset,
and steps over the byte following a backslash.  The first argument is fuel
bounding the number of iterations (the loop runs while `i < len` and `i`
strictly increases, so `len` iterations always suffice; structural recursion
on the fuel keeps the definition kernel-reducible). -/
def enterLoop (len : Nat) : Nat → List Nat → Nat → Bool → Bool → List Nat →
    List Nat × List Nat
  | 0, buf, _, _, _, params => (buf, params)
  | fuel + 1, buf, i, quotes, record, params =>
    if i < len then
      let c := buf.getD i 0
      if (quotes || (c != 32 && c != 9 && c != 44)) && c != 0 then
        if c = 34 then
          enterLoop len fuel (buf.set i 0) (i + 1) (!quotes) record params
        else
          let params1 := if record then params ++ [i] else params
          if c = 92 then enterLoop len fuel buf (i + 2) quotes false params1
          else enterLoop len fuel buf (i + 1) quotes false params1
      else
        enterLoop len fuel (buf.set i 0) (i + 1) quotes true params
    else (buf, params)

/-- `shellEnter` (shell.c:272): accept the current line: terminate it,
commit it to history, tokenise it in place, then dispatch the first token
("help" short-circuits; otherwise the first command with a matching name is
invoked; otherwise "Command not found"). -/
def shellEnter (cfg : ShellConfig) (s : SHELL_TypeDef) :
    SHELL_TypeDef × List OutEvent :=
  if s.length = 0 then (s, [OutEvent.str s.command])
  else
    let s0 := { s with buffer := s.buffer.set s.length 0, length := s.length + 1 }
    let s1 := shellHistoryAdd cfg s0
    let tk := enterLoop s1.length s1.length s1.buffer 0 false true []
    let s2 := { s1 with buffer := tk.1, param := tk.2, length := 0, cursor := 0 }
    if tk.2.length = 0 then (s2, [OutEvent.str s.command])
    else
      let args := tk.2.map (tokenAt tk.1)
      let tok0 := args.getD 0 []
      if tok0 = strBytes "help" then
        ({ s2 with isActive := false },
         [OutEvent.str (strBytes "\r\n"), OutEvent.invokeHelp args,
          OutEvent.str s.command])
      else
        match s2.commandBase.findIdx? (fun c => cstr c.name == tok0) with
        | some j =>
          ({ s2 with isActive := false },
           [OutEvent.str (strBytes "\r\n"),
            OutEvent.invoke (cstr (s2.commandBase.getD j ⟨[], []⟩).name) args,
            OutEvent.str s.command])
        | none =>
          (s2, [OutEvent.str (strBytes "\r\n"), OutEvent.str TEXT_CMD_NONE,
            OutEvent.str s.command])

/-- `shellDisplayItem` (shell.c:674): one help-list row: name, padding up to
column 22 (unsigned-short arithmetic; at least one space, 4 when the name
fills the column), "--", description, newline. -/
def shellDisplayItem (cmds : List SHELL_CommandTypeDef) (index : Nat) :
    List OutEvent :=
  let cmd := cmds.getD index ⟨[], []⟩
  let n := (cstr cmd.name).length
  let sp := (22 + 65536 - n % 65536) % 65536
  let sp1 := if 0 < sp then sp else 4
  [OutEvent.str (cstr cmd.name)] ++
    List.replicate sp1 (OutEvent.str (strBytes " ")) ++
    [OutEvent.str (strBytes "--"), OutEvent.str (cstr cmd.desc),
     OutEvent.str (strBytes "\r\n")]

/-- Accumulator of the `shellTab` match loop (shell.c:424-443). -/
structure TabAcc where
  maxMatch : Nat
  lastMatchIndex : Nat
  matchNum : Nat
  out : List OutEvent

/-- The match loop of `shellTab` over the command indices: an entry matches
when the common prefix with the buffer is the whole buffer; from the second
match on, the previous match is listed and the common prefix among matched
names is tracked. -/
def shellTabLoop (cmds : List SHELL_CommandTypeDef) (buf : List Nat) (len : Nat) :
    List Nat → TabAcc → TabAcc
  | [], acc => acc
  | i :: rest, acc =>
    if shellStringCompare buf (cmds.getD i ⟨[], []⟩).name = len then
      let acc1 :=
        if acc.matchNum ≠ 0 then
          { acc with
            out := acc.out ++
              (if acc.matchNum = 1 then [OutEvent.str (strBytes "\r\n")] else []) ++
              shellDisplayItem cmds acc.lastMatchIndex
            maxMatch := min acc.maxMatch
              (shellStringCompare (cmds.getD acc.lastMatchIndex ⟨[], []⟩).name
                (cmds.getD i ⟨[], []⟩).name) }
        else acc
      shellTabLoop cmds buf len rest
        { acc1 with lastMatchIndex := i, matchNum := acc1.matchNum + 1 }
    else
      shellTabLoop cmds buf len rest acc

/-- `shellTab` (shell.c:413): tab completion.  The `SHELL_LONG_HELP`
double-tab block is skipped because no tick source is wired
(`SHELL_GET_TICK()` is 0).  An empty buffer lists all commands via help. -/
def shellTab (cfg : ShellConfig) (s : SHELL_TypeDef) :
    SHELL_TypeDef × List OutEvent :=
  if s.length ≠ 0 then
    let buf0 := s.buffer.set s.length 0
    let acc := shellTabLoop s.commandBase buf0 s.length
      (List.range s.commandBase.length)
      { maxMatch := cfg.cmdMax, lastMatchIndex := 0, matchNum := 0, out := [] }
    if acc.matchNum = 0 then ({ s with buffer := buf0 }, acc.out)
    else
      let out1 := acc.out ++ (if acc.matchNum = 1 then shellClearLine s else [])
      let r := shellStringCopy buf0
        (s.commandBase.getD acc.lastMatchIndex ⟨[], []⟩).name
      let len2 := if 1 < acc.matchNum then acc.maxMatch else r.2
      let out2 := out1 ++
        (if 1 < acc.matchNum then
          shellDisplayItem s.commandBase acc.lastMatchIndex ++ [OutEvent.str s.command]
        else [])
      let buf2 := r.1.set len2 0
      ({ s with buffer := buf2, length := len2, cursor := len2 },
       out2 ++ [OutEvent.str (cstr buf2)])
  else
    ({ s with isActive := false }, [OutEvent.invokeHelp [], OutEvent.str s.command])

/-- `shellAnsiStart` (shell.c:548). -/
def shellAnsiStart (s : SHELL_TypeDef) : SHELL_TypeDef :=
  { s with inputMode := InputMode.ansiEsc }

/-- `shellAnsi` (shell.c:559): the escape / CSI state machine (arrow keys). -/
def shellAnsi (cfg : ShellConfig) (s : SHELL_TypeDef) (data : Nat) :
    SHELL_TypeDef × List OutEvent :=
  match s.inputMode with
  | InputMode.ansiCsi =>
    let r :=
      if data = 0x41 then shellHistory cfg s 0
      else if data = 0x42 then shellHistory cfg s 1
      else if data = 0x43 then
        if s.cursor < s.length then
          ({ s with cursor := s.cursor + 1 }, [OutEvent.byte (s.buffer.getD s.cursor 0)])
        else (s, [])
      else if data = 0x44 then
        if 0 < s.cursor then ({ s with cursor := s.cursor - 1 }, [OutEvent.byte 8])
        else (s, [])
      else (s, [])
    ({ r.1 with inputMode := InputMode.normal }, r.2)
  | InputMode.ansiEsc =>
    ({ s with inputMode := if data = 0x5B then InputMode.ansiCsi else InputMode.normal },
     [])
  | InputMode.normal => (s, [])

/-- One key-action entry (`SHELL_KeyFunctionDef`); a null function pointer is
`none`. -/
structure SHELL_KeyFunctionDef where
  keyCode : Nat
  keyFunction : Option (SHELL_TypeDef → SHELL_TypeDef × List OutEvent)

/-- The scan of one key-action table in `shellHandler` (shell.c:625-652):
every entry whose code matches is invoked, in table order; the returned
`Bool` is `keyDefFind`. -/
def runKeyList : List SHELL_KeyFunctionDef → SHELL_TypeDef → Nat →
    Bool × SHELL_TypeDef × List OutEvent
  | [], s, _ => (false, s, [])
  | k :: ks, s, data =>
    if k.keyCode = data then
      let r := match k.keyFunction with
        | some f => f s
        | none => (s, [])
      let rest := runKeyList ks r.1 data
      (true, rest.2.1, r.2 ++ rest.2.2)
    else runKeyList ks s data

/-- `shellDefaultKeyFunctionList` (shell.c:74).  The key codes are the header
macros `SHELL_KEY_LF/CR/TAB/BACKSPACE/DELETE/ESC`, modelled from the spec as
the ASCII codes 10, 13, 9, 8, 127, 27. -/
def shellDefaultKeyFunctionList (cfg : ShellConfig) : List SHELL_KeyFunctionDef :=
  [⟨10, some (shellEnter cfg)⟩, ⟨13, some (shellEnter cfg)⟩,
   ⟨9, some (shellTab cfg)⟩, ⟨8, some shellBackspace⟩,
   ⟨127, some shellBackspace⟩, ⟨27, some (fun s => (shellAnsiStart s, []))⟩]

/-- `shellHandler` (shell.c:618): route one input byte.  In Normal mode the
override table (`keyFuncBase`/`keyFuncNumber`, here `keyList`) is scanned
first; the default table is scanned only when no override entry matched;
bytes matching no entry go to `shellNormal`.  Other modes go to `shellAnsi`.
Finally (`SHELL_LONG_HELP == 1`) `tabFlag` records whether the byte was
TAB. -/
def shellHandler (cfg : ShellConfig) (keyList : List SHELL_KeyFunctionDef)
    (s : SHELL_TypeDef) (data : Nat) : SHELL_TypeDef × List OutEvent :=
  let r :=
    if s.inputMode = InputMode.normal then
      let r1 := runKeyList keyList s data
      if r1.1 then (r1.2.1, r1.2.2)
      else
        let r2 := runKeyList (shellDefaultKeyFunctionList cfg) r1.2.1 data
        if r2.1 then (r2.2.1, r2.2.2)
        else shellNormal cfg r2.2.1 data
    else shellAnsi cfg s data
  ({ r.1 with tabFlag := data == 9 }, r.2)

/-- Three `shellHandler` steps (used to deliver a 3-byte escape sequence). -/
def handler3 (cfg : ShellConfig) (keyList : List SHELL_KeyFunctionDef)
    (s : SHELL_TypeDef) (a b c : Nat) : SHELL_TypeDef :=
  (shellHandler cfg keyList
    (shellHandler cfg keyList (shellHandler cfg keyList s a).1 b).1 c).1

/-- The state after `shellInit` (shell.c:89) on a zero-initialised instance
(the registry insertion and the banner display are outside the modelled
state). -/
def shellInitState (cfg : ShellConfig) (prompt : List Nat)
    (cmds : List SHELL_CommandTypeDef) : SHELL_TypeDef where
  command := prompt
  buffer := List.replicate cfg.cmdMax 0
  length := 0
  cursor := 0
  param := []
  history := List.replicate cfg.histMax (List.replicate cfg.cmdMax 0)
  historyCount := 0
  historyFlag := 0
  historyOffset := 0
  inputMode := InputMode.normal
  tabFlag := false
  isActive := false
  commandBase := cmds

/-- One editor step as quantified by the invariant claims: `shellNormal`
with some byte or `shellBackspace`. -/
inductive EditOp where
  | insert (b : Nat)
  | delBack
deriving DecidableEq

/-- Apply one editor step (states only; edits do not read the output). -/
def applyEdit (cfg : ShellConfig) (s : SHELL_TypeDef) : EditOp → SHELL_TypeDef
  | EditOp.insert b => (shellNormal cfg s b).1
  | EditOp.delBack => (shellBackspace s).1

/-- Apply a sequence of editor steps. -/
def applyEdits (cfg : ShellConfig) : SHELL_TypeDef → List EditOp → SHELL_TypeDef
  | s, [] => s
  | s, op :: ops => applyEdits cfg (applyEdit cfg s op) ops

/-- Editor invariant of reachable states: cursor within the line, line
shorter than the capacity, buffer exactly `cmdMax` long, and every cell from
`length` on still 0 (in particular the terminator `buffer[length]`). -/
def EditorInv (cfg : ShellConfig) (s : SHELL_TypeDef) : Prop :=
  s.cursor ≤ s.length ∧ s.length < cfg.cmdMax ∧ s.buffer.length = cfg.cmdMax ∧
    ∀ i ∈ List.range cfg.cmdMax, s.length ≤ i → s.buffer.getD i 0 = 0

/-! ### Basic list lemmas used by the proofs -/

theorem getD_set_self {α : Type} (l : List α) (i : Nat) (v d : α)
    (h : i < l.length) : (l.set i v).getD i d = v := by
  simp [List.getD_eq_getElem?_getD, List.getElem?_set_self (by simpa using h)]

theorem getD_set_other {α : Type} (l : List α) (i j : Nat) (v d : α)
    (h : i ≠ j) : (l.set i v).getD j d = l.getD j d := by
  simp [List.getD_eq_getElem?_getD, List.getElem?_set_ne h]

theorem getD_out {α : Type} (l : List α) (j : Nat) (d : α)
    (h : l.length ≤ j) : l.getD j d = d := by
  simp [List.getD_eq_getElem?_getD, List.getElem?_eq_none h]

theorem list_eq_of_getD : ∀ (a b : List Nat), a.length = b.length →
    (∀ j, a.getD j 0 = b.getD j 0) → a = b
  | [], [], _, _ => rfl
  | [], _ :: _, h, _ => absurd h (by simp)
  | _ :: _, [], h, _ => absurd h (by simp)
  | x :: xs, y :: ys, h, hj => by
    have h0 := hj 0
    simp only [List.getD_cons_zero] at h0
    have ht := list_eq_of_getD xs ys (by simpa using h)
      (fun j => by simpa using hj (j + 1))
    rw [h0, ht]

theorem set_zero_eq_self : ∀ (l : List Nat) (n : Nat), l.getD n 0 = 0 →
    l.set n 0 = l
  | [], _, _ => rfl
  | a :: t, 0, h => by
    simp only [List.getD_cons_zero] at h
    simp [List.set, h]
  | a :: t, n + 1, h => by
    simp only [List.set]
    rw [set_zero_eq_self t n (by simpa using h)]

theorem listWrite_cons : ∀ (xs : List Nat) (d : Nat) (dest : List Nat) (i : Nat),
    listWrite (d :: dest) (i + 1) xs = d :: listWrite dest i xs
  | [], _, _, _ => rfl
  | x :: xs, d, dest, i => by
    simp only [listWrite, List.set]
    exact listWrite_cons xs d (dest.set i x) (i + 1)

theorem listWrite_zero : ∀ (xs dest : List Nat), xs.length ≤ dest.length →
    listWrite dest 0 xs = xs ++ dest.drop xs.length
  | [], dest, _ => by simp [listWrite]
  | x :: xs, [], h => by simp at h
  | x :: xs, d :: dest, h => by
    simp only [listWrite, List.set]
    rw [listWrite_cons, listWrite_zero xs dest (by simpa using h)]
    simp

theorem cstr_ne_zero : ∀ (l : List Nat), ∀ b ∈ cstr l, b ≠ 0
  | [] => by intro b hb; simp [cstr] at hb
  | a :: t => by
    intro b hb
    by_cases ha : a = 0
    · simp [cstr, List.takeWhile_cons, ha] at hb
    · simp only [cstr, List.takeWhile_cons] at hb
      rw [if_pos (by simpa using ha)] at hb
      rcases List.mem_cons.mp hb with rfl | hb
      · exact ha
      · exact cstr_ne_zero t b hb

theorem cstr_append_zero : ∀ (content rest : List Nat),
    (∀ b ∈ content, b ≠ 0) → cstr (content ++ 0 :: rest) = content
  | [], rest, _ => by simp [cstr, List.takeWhile_cons]
  | x :: content, rest, h => by
    have hx : x ≠ 0 := h x (by simp)
    simp only [List.cons_append, cstr, List.takeWhile_cons]
    rw [if_pos (by simpa using hx)]
    have := cstr_append_zero content rest (fun b hb => h b (by simp [hb]))
    simp only [cstr] at this
    rw [this]

theorem cstr_copy (dest content : List Nat) (h : ∀ b ∈ content, b ≠ 0)
    (hfit : content.length + 1 ≤ dest.length) :
    cstr (listWrite dest 0 (content ++ [0])) = content := by
  rw [listWrite_zero _ _ (by simp; omega)]
  have heq : (content ++ [0]) ++ dest.drop (content ++ [0]).length =
      content ++ 0 :: dest.drop (content ++ [0]).length := by simp
  rw [heq, cstr_append_zero _ _ h]

theorem cstr_eq_nil_iff (l : List Nat) : cstr l = [] ↔ (cstr l).length = 0 := by
  simp [List.length_eq_zero]

/-! ### Lemmas about the insert / delete shift loops -/

theorem insShift_length : ∀ (n : Nat) (buf : List Nat) (c : Nat),
    (insShift buf c n).length = buf.length
  | 0, _, _ => rfl
  | n + 1, buf, c => by
    simp only [insShift]
    rw [insShift_length n]
    simp

theorem insShift_getD_le : ∀ (n : Nat) (buf : List Nat) (c j : Nat), j ≤ c →
    (insShift buf c n).getD j 0 = buf.getD j 0
  | 0, _, _, _, _ => rfl
  | n + 1, buf, c, j, h => by
    simp only [insShift]
    rw [insShift_getD_le n _ c j h, getD_set_other _ _ _ _ _ (by omega)]

theorem insShift_getD_gt : ∀ (n : Nat) (buf : List Nat) (c j : Nat), c + n < j →
    (insShift buf c n).getD j 0 = buf.getD j 0
  | 0, _, _, _, _ => rfl
  | n + 1, buf, c, j, h => by
    simp only [insShift]
    rw [insShift_getD_gt n _ c j (by omega), getD_set_other _ _ _ _ _ (by omega)]

theorem insShift_getD_mid : ∀ (n : Nat) (buf : List Nat) (c j : Nat),
    c < j → j ≤ c + n → c + n < buf.length →
    (insShift buf c n).getD j 0 = buf.getD (j - 1) 0
  | 0, _, _, _, h1, h2, _ => by exfalso; omega
  | n + 1, buf, c, j, h1, h2, h3 => by
    simp only [insShift]
    by_cases hj : j ≤ c + n
    · rw [insShift_getD_mid n _ c j h1 hj (by simp; omega)]
      exact getD_set_other _ _ _ _ _ (by omega)
    · have hj2 : j = c + n + 1 := by omega
      rw [insShift_getD_gt n _ c j (by omega), hj2,
        getD_set_self _ _ _ _ (by omega)]
      have he : c + n + 1 - 1 = c + n := by omega
      rw [he]

theorem delShift_length : ∀ (k c : Nat) (buf : List Nat) (i : Nat),
    (delShift c buf i k).length = buf.length
  | 0, _, _, _ => rfl
  | k + 1, c, buf, i => by
    simp only [delShift]
    rw [delShift_length k]
    simp

theorem delShift_getD_lt : ∀ (k c : Nat) (buf : List Nat) (i j : Nat),
    j + 1 < c + i → (delShift c buf i k).getD j 0 = buf.getD j 0
  | 0, _, _, _, _, _ => rfl
  | k + 1, c, buf, i, j, h => by
    simp only [delShift]
    rw [delShift_getD_lt k c _ (i + 1) j (by omega),
      getD_set_other _ _ _ _ _ (by omega)]

theorem delShift_getD_ge : ∀ (k c : Nat) (buf : List Nat) (i j : Nat), 1 ≤ c →
    c + i - 1 + k ≤ j → (delShift c buf i k).getD j 0 = buf.getD j 0
  | 0, _, _, _, _, _, _ => rfl
  | k + 1, c, buf, i, j, hc, h => by
    simp only [delShift]
    rw [delShift_getD_ge k c _ (i + 1) j hc (by omega),
      getD_set_other _ _ _ _ _ (by omega)]

theorem delShift_getD_mid : ∀ (k c : Nat) (buf : List Nat) (i j : Nat), 1 ≤ c →
    c + i - 1 ≤ j → j < c + i - 1 + k → c + i - 1 + k ≤ buf.length →
    (delShift c buf i k).getD j 0 = buf.getD (j + 1) 0
  | 0, _, _, _, _, _, _, h2, _ => by exfalso; omega
  | k + 1, c, buf, i, j, hc, h1, h2, h3 => by
    simp only [delShift]
    by_cases hj : j = c + i - 1
    · rw [delShift_getD_lt k c _ (i + 1) j (by omega), hj,
        getD_set_self _ _ _ _ (by omega)]
      have he : c + i - 1 + 1 = c + i := by omega
      rw [he]
    · rw [delShift_getD_mid k c _ (i + 1) j hc (by omega) (by omega)
        (by simp; omega)]
      exact getD_set_other _ _ _ _ _ (by omega)

/-! ### Editor invariant: preservation by insert and delete-backward -/

theorem EditorInv.zero_from {cfg : ShellConfig} {s : SHELL_TypeDef}
    (h : EditorInv cfg s) : ∀ i, s.length ≤ i → s.buffer.getD i 0 = 0 := by
  intro i hi
  by_cases hlt : i < cfg.cmdMax
  · exact h.2.2.2 i (List.mem_range.mpr hlt) hi
  · exact getD_out _ _ _ (by rw [h.2.2.1]; omega)

theorem shellNormal_preserves (cfg : ShellConfig) (s : SHELL_TypeDef) (data : Nat)
    (h : EditorInv cfg s) : EditorInv cfg (shellNormal cfg s data).1 := by
  have hc := h.1
  have hl := h.2.1
  have hb := h.2.2.1
  have hzf := EditorInv.zero_from h
  unfold shellNormal
  by_cases h0 : data = 0
  · simpa [h0] using h
  rw [if_neg h0]
  by_cases hroom : s.length < cfg.cmdMax - 1
  · rw [if_pos hroom]
    by_cases happ : s.length = s.cursor
    · rw [if_pos happ]
      refine ⟨?_, ?_, ?_, ?_⟩ <;> dsimp only
      · omega
      · omega
      · simp [hb]
      · intro i _ hi
        rw [getD_set_other _ _ _ _ _ (by omega)]
        exact hzf i (by omega)
    · rw [if_neg happ]
      refine ⟨?_, ?_, ?_, ?_⟩ <;> dsimp only
      · omega
      · omega
      · simp [insShift_length, hb]
      · intro i _ hi
        by_cases hi1 : i = s.length + 1
        · rw [hi1, getD_set_self _ _ _ _
            (by simp [insShift_length]; omega)]
        · rw [getD_set_other _ _ _ _ _ (by omega),
            getD_set_other _ _ _ _ _ (by omega),
            insShift_getD_gt _ _ _ _ (by omega)]
          exact hzf i (by omega)
  · rw [if_neg hroom]
    refine ⟨?_, ?_, ?_, ?_⟩ <;> dsimp only
    · omega
    · exact hl
    · exact hb
    · intro i _ hi
      exact hzf i hi

theorem shellBackspace_preserves (cfg : ShellConfig) (s : SHELL_TypeDef)
    (h : EditorInv cfg s) : EditorInv cfg (shellBackspace s).1 := by
  have hc := h.1
  have hl := h.2.1
  have hb := h.2.2.1
  have hzf := EditorInv.zero_from h
  unfold shellBackspace
  by_cases h0 : s.length = 0
  · simpa [h0] using h
  rw [if_neg h0]
  by_cases hend : s.cursor = s.length
  · rw [if_pos hend]
    refine ⟨?_, ?_, ?_, ?_⟩ <;> dsimp only
    · omega
    · omega
    · simp [hb]
    · intro i _ hi
      by_cases hi1 : i = s.length - 1
      · rw [hi1, getD_set_self _ _ _ _ (by omega)]
      · rw [getD_set_other _ _ _ _ _ (by omega)]
        exact hzf i (by omega)
  · rw [if_neg hend]
    by_cases hcur : 0 < s.cursor
    · rw [if_pos hcur]
      refine ⟨?_, ?_, ?_, ?_⟩ <;> dsimp only
      · omega
      · omega
      · simp [delShift_length, hb]
      · intro i _ hi
        by_cases hi1 : i = s.length - 1
        · rw [hi1, getD_set_self _ _ _ _
            (by simp [delShift_length]; omega)]
        · rw [getD_set_other _ _ _ _ _ (by omega),
            delShift_getD_ge _ _ _ _ _ hcur (by omega)]
          exact hzf i (by omega)
    · rw [if_neg hcur]
      exact ⟨hc, hl, hb, fun i _ hi => hzf i hi⟩

theorem applyEdits_inv (cfg : ShellConfig) : ∀ (ops : List EditOp)
    (s : SHELL_TypeDef), EditorInv cfg s → EditorInv cfg (applyEdits cfg s ops)
  | [], _, h => h
  | op :: ops, s, h => by
    refine applyEdits_inv cfg ops _ ?_
    cases op with
    | insert b => exact shellNormal_preserves cfg s b h
    | delBack => exact shellBackspace_preserves cfg s h

/-! ### Claim theorems: editor invariants and frame effects -/

/-- Claim C1: for every sequence of insert (`shellNormal`) and
delete-backward (`shellBackspace`) operations, starting from any state
satisfying the editor invariant (in particular the initialised state), the
resulting state — hence the state after every step, since the sequence is
arbitrary — satisfies `0 ≤ cursor ≤ length < capacity` and
`buffer[length] = 0`.  The "stays within capacity" restriction of the claim
is not even needed: an insert into a full line is refused and keeps the
invariant. -/
theorem editor_invariant_steps (cfg : ShellConfig) (s : SHELL_TypeDef)
    (ops : List EditOp) (h : EditorInv cfg s) :
    0 ≤ (applyEdits cfg s ops).cursor ∧
    (applyEdits cfg s ops).cursor ≤ (applyEdits cfg s ops).length ∧
    (applyEdits cfg s ops).length < cfg.cmdMax ∧
    (applyEdits cfg s ops).buffer.getD (applyEdits cfg s ops).length 0 = 0 := by
  have h2 := applyEdits_inv cfg ops s h
  exact ⟨Nat.zero_le _, h2.1, h2.2.1, EditorInv.zero_from h2 _ le_rfl⟩

/-- Shared concrete instance: a 4-byte line buffer, 2 history rows, prompt
`>`. -/
def w1cfg : ShellConfig := ⟨4, 2⟩

/-- Shared concrete instance: freshly initialised shell. -/
def w1state : SHELL_TypeDef := shellInitState w1cfg [62] []

/-- Witness for C1 at a concrete editor run (insert `a`, insert `b`,
delete). -/
theorem editor_invariant_steps_witness :
    EditorInv w1cfg w1state ∧
    (0 ≤ (applyEdits w1cfg w1state [EditOp.insert 97, EditOp.insert 98,
        EditOp.delBack]).cursor ∧
     (applyEdits w1cfg w1state [EditOp.insert 97, EditOp.insert 98,
        EditOp.delBack]).cursor ≤
       (applyEdits w1cfg w1state [EditOp.insert 97, EditOp.insert 98,
        EditOp.delBack]).length ∧
     (applyEdits w1cfg w1state [EditOp.insert 97, EditOp.insert 98,
        EditOp.delBack]).length < w1cfg.cmdMax ∧
     (applyEdits w1cfg w1state [EditOp.insert 97, EditOp.insert 98,
        EditOp.delBack]).buffer.getD
       (applyEdits w1cfg w1state [EditOp.insert 97, EditOp.insert 98,
        EditOp.delBack]).length 0 = 0) :=
  ⟨by unfold EditorInv; decide, editor_invariant_steps w1cfg w1state
    [EditOp.insert 97, EditOp.insert 98, EditOp.delBack] (by unfold EditorInv; decide)⟩

/-- Claim C10: with `length > 0` and `cursor == 0`, delete-backward is a
complete no-op: the state is unchanged and nothing is emitted. -/
theorem backspace_at_line_start (s : SHELL_TypeDef) (hlen : 0 < s.length)
    (hcur : s.cursor = 0) : shellBackspace s = (s, []) := by
  unfold shellBackspace
  rw [if_neg (by omega), if_neg (by omega), if_neg (by omega)]

/-- Concrete state for the C10 witness: line `a`, cursor at start. -/
def w10state : SHELL_TypeDef :=
  { w1state with buffer := [97, 0, 0, 0], length := 1, cursor := 0 }

/-- Witness for C10 at a concrete state. -/
theorem backspace_at_line_start_witness :
    0 < w10state.length ∧ w10state.cursor = 0 ∧
    shellBackspace w10state = (w10state, []) :=
  ⟨by decide, by decide, backspace_at_line_start w10state (by decide) (by decide)⟩

/-- Concrete state for C5: capacity 3, line `ab` of length 2 = capacity − 1,
cursor at start. -/
def c5cfg : ShellConfig := ⟨3, 2⟩

/-- Concrete state for C5 (see `c5cfg`). -/
def c5state : SHELL_TypeDef where
  command := [62]
  buffer := [97, 98, 0]
  length := 2
  cursor := 0
  param := []
  history := [[0, 0, 0], [0, 0, 0]]
  historyCount := 0
  historyFlag := 0
  historyOffset := 0
  inputMode := InputMode.normal
  tabFlag := false
  isActive := false
  commandBase := []

/-- Claim C5 as stated is false on the code: a refused insert does not leave
the cursor unchanged.  At `c5state` (length 2 = capacity − 1, cursor 0),
inserting byte `x` moves the cursor to 2 (shell.c:539 `cursor = length`). -/
theorem too_long_cursor_counterexample :
    ¬ (shellNormal c5cfg c5state 120).1.cursor = c5state.cursor := by decide

/-- Claim C5 amended: when an insert of a nonzero byte is attempted with
`length` already at capacity − 1, the buffer and the length are unchanged
and nothing further happens except that the "too long" warning, the prompt
and the current buffer are emitted — and the cursor is set to `length`. -/
theorem too_long_insert_frame (cfg : ShellConfig) (s : SHELL_TypeDef)
    (data : Nat) (hdata : data ≠ 0) (hfull : s.length = cfg.cmdMax - 1) :
    shellNormal cfg s data =
      ({ s with cursor := s.length },
       [OutEvent.str TEXT_CMD_TOO_LONG, OutEvent.str s.command,
        OutEvent.str (cstr s.buffer)]) := by
  unfold shellNormal
  rw [if_neg hdata, if_neg (by omega)]

/-- Witness for the amended C5 at `c5state`. -/
theorem too_long_insert_frame_witness :
    (120 : Nat) ≠ 0 ∧ c5state.length = c5cfg.cmdMax - 1 ∧
    shellNormal c5cfg c5state 120 =
      ({ c5state with cursor := c5state.length },
       [OutEvent.str TEXT_CMD_TOO_LONG, OutEvent.str c5state.command,
        OutEvent.str (cstr c5state.buffer)]) :=
  ⟨by decide, by decide, too_long_insert_frame c5cfg c5state 120 (by decide) (by decide)⟩

/-! ### Claim C4: insert followed by delete-backward is the identity -/

theorem shell_update_eq (s : SHELL_TypeDef) (B : List Nat) (l c : Nat)
    (hB : B = s.buffer) (hl : l = s.length) (hc : c = s.cursor) :
    ({ s with buffer := B, length := l, cursor := c } : SHELL_TypeDef) = s := by
  subst hB
  subst hl
  subst hc
  rfl

/-- Claim C4: for a line of length `n < capacity − 1` in an invariant state,
inserting one (nonzero) byte at the cursor and immediately deleting
backward restores the exact original state: buffer contents, length and
cursor position. -/
theorem insert_backspace_roundtrip (cfg : ShellConfig) (s : SHELL_TypeDef)
    (data : Nat) (hdata : data ≠ 0) (h : EditorInv cfg s)
    (hroom : s.length < cfg.cmdMax - 1) :
    (shellBackspace (shellNormal cfg s data).1).1 = s := by
  have hc := h.1
  have hb := h.2.2.1
  have hzf := EditorInv.zero_from h
  by_cases happ : s.length = s.cursor
  · unfold shellNormal
    rw [if_neg hdata, if_pos hroom, if_pos happ]
    unfold shellBackspace
    dsimp only
    rw [if_neg (by omega), if_pos (by omega)]
    dsimp only
    simp only [Nat.add_sub_cancel]
    rw [List.set_set, set_zero_eq_self _ _ (hzf _ le_rfl)]
  · have hlt : s.cursor < s.length := by omega
    unfold shellNormal
    rw [if_neg hdata, if_pos hroom, if_neg happ]
    dsimp only
    unfold shellBackspace
    dsimp only
    rw [if_neg (by omega), if_neg (by omega), if_pos (by omega)]
    dsimp only
    simp only [Nat.succ_sub_succ_eq_sub, Nat.add_sub_cancel, Nat.sub_zero]
    apply shell_update_eq s _ _ _ ?_ rfl rfl
    apply list_eq_of_getD
    · simp [List.length_set, delShift_length, insShift_length]
    · intro j
      rcases lt_trichotomy j s.length with hj | hj | hj
      · by_cases hjc : j < s.cursor
        · rw [getD_set_other _ _ _ _ _ (by omega),
            delShift_getD_lt _ _ _ _ _ (by omega),
            getD_set_other _ _ _ _ _ (by omega),
            getD_set_other _ _ _ _ _ (by omega),
            insShift_getD_le _ _ _ _ (by omega)]
        · rw [getD_set_other _ _ _ _ _ (by omega),
            delShift_getD_mid _ _ _ _ _ (by omega) (by omega) (by omega)
              (by simp [List.length_set, insShift_length, hb]; omega),
            getD_set_other _ _ _ _ _ (by omega),
            getD_set_other _ _ _ _ _ (by omega),
            insShift_getD_mid _ _ _ _ (by omega) (by omega) (by rw [hb]; omega)]
          simp only [Nat.add_sub_cancel]
      · rw [hj, getD_set_self _ _ _ _
          (by simp [delShift_length, List.length_set, insShift_length]; rw [hb]; omega)]
        exact (hzf _ le_rfl).symm
      · by_cases hj1 : j = s.length + 1
        · rw [getD_set_other _ _ _ _ _ (by omega),
            delShift_getD_ge _ _ _ _ _ (by omega) (by omega), hj1,
            getD_set_self _ _ _ _
              (by simp [List.length_set, insShift_length]; rw [hb]; omega)]
          exact (hzf _ (by omega)).symm
        · rw [getD_set_other _ _ _ _ _ (by omega),
            delShift_getD_ge _ _ _ _ _ (by omega) (by omega),
            getD_set_other _ _ _ _ _ (by omega),
            getD_set_other _ _ _ _ _ (by omega),
            insShift_getD_gt _ _ _ _ (by omega)]

/-- Concrete state for the C4 witness: line `a`, cursor at start (the
mid-line insertion path). -/
def c4state : SHELL_TypeDef :=
  { w1state with buffer := [97, 0, 0, 0], length := 1, cursor := 0 }

/-- Witness for C4: insert `b` at position 0 of line `a`, then delete it. -/
theorem insert_backspace_roundtrip_witness :
    (98 : Nat) ≠ 0 ∧ EditorInv w1cfg c4state ∧ c4state.length < w1cfg.cmdMax - 1 ∧
    (shellBackspace (shellNormal w1cfg c4state 98).1).1 = c4state :=
  ⟨by decide, by unfold EditorInv; decide, by decide,
   insert_backspace_roundtrip w1cfg c4state 98 (by decide)
     (by unfold EditorInv; decide) (by decide)⟩

/-! ### Claim C2: override vs default key table -/

/-- Behaviour claimed by the spec for C2, written from the spec's words for
comparison with `shellHandler`: on a byte matching entries in both tables,
both tables' actions are invoked, the override table's first and the default
table's afterwards. -/
def specBothTablesApplied (cfg : ShellConfig) (keyList : List SHELL_KeyFunctionDef)
    (s : SHELL_TypeDef) (data : Nat) : SHELL_TypeDef × List OutEvent :=
  let r1 := runKeyList keyList s data
  let r2 := runKeyList (shellDefaultKeyFunctionList cfg) r1.2.1 data
  ({ r2.2.1 with tabFlag := data == 9 }, r1.2.2 ++ r2.2.2)

/-- Override table for the C2 counterexample: byte 8 (backspace, also in the
default table) mapped to an action that leaves the state unchanged. -/
def c2override : List SHELL_KeyFunctionDef := [⟨8, some (fun s => (s, []))⟩]

/-- Concrete state for C2: Normal mode, line `a` of length 1, cursor 1. -/
def c2state : SHELL_TypeDef :=
  { c5state with buffer := [97, 0, 0], length := 1, cursor := 1 }

/-- Claim C2 is false on the code: on byte 8, matched by both the override
table `c2override` and the default table, `shellHandler` runs only the
override action (shell.c:637 guards the default scan with `keyDefFind == 0`);
had the default `shellBackspace` also run, the line would have become empty.
The two sides differ (actual length stays 1, claimed behaviour gives 0). -/
theorem override_default_counterexample :
    shellHandler c5cfg c2override c2state 8 ≠
      specBothTablesApplied c5cfg c2override c2state 8 := by decide

/-- Claim C2 amended: when the override table matches the byte (in Normal
mode), exactly the override table's matching actions run, in table order,
and the default table is not consulted. -/
theorem override_shadows_default (cfg : ShellConfig)
    (keyList : List SHELL_KeyFunctionDef) (s : SHELL_TypeDef) (data : Nat)
    (hmode : s.inputMode = InputMode.normal)
    (hfound : (runKeyList keyList s data).1 = true) :
    shellHandler cfg keyList s data =
      ({ (runKeyList keyList s data).2.1 with tabFlag := data == 9 },
       (runKeyList keyList s data).2.2) := by
  unfold shellHandler
  simp only [hmode, if_true, hfound, ite_true, if_pos]

/-- Witness for the amended C2 at the concrete C2 instance. -/
theorem override_shadows_default_witness :
    c2state.inputMode = InputMode.normal ∧
    (runKeyList c2override c2state 8).1 = true ∧
    shellHandler c5cfg c2override c2state 8 =
      ({ (runKeyList c2override c2state 8).2.1 with tabFlag := (8 : Nat) == 9 },
       (runKeyList c2override c2state 8).2.2) :=
  ⟨by decide, by decide,
   override_shadows_default c5cfg c2override c2state 8 (by decide) (by decide)⟩

/-! ### Claim C3: tokenising a backslash-escaped space -/

/-- Configuration for the C3 scenario (8-byte buffer, 2 history rows). -/
def c3cfg : ShellConfig := ⟨8, 2⟩

/-- Concrete state for C3: accepted line `a\ b c` (bytes
97 92 32 98 32 99), length 6, cursor at end. -/
def c3state : SHELL_TypeDef where
  command := [62]
  buffer := [97, 92, 32, 98, 32, 99, 0, 0]
  length := 6
  cursor := 6
  param := []
  history := [List.replicate 8 0, List.replicate 8 0]
  historyCount := 0
  historyFlag := 0
  historyOffset := 0
  inputMode := InputMode.normal
  tabFlag := false
  isActive := false
  commandBase := []

/-- The token list the dispatcher produced for `c3state`: the recorded
start offsets read back as C strings from the tokenised buffer. -/
def c3tokens : List (List Nat) :=
  (shellEnter c3cfg c3state).1.param.map (tokenAt (shellEnter c3cfg c3state).1.buffer)

/-- Claim C3 is false as stated: tokenising `a\ b c` does yield two tokens
and the escaped space does not split the first one, but the backslash byte
remains in the token text: the tokens are `a\ b` (bytes 97 92 32 98) and
`c`, not `a b` (bytes 97 32 98) and `c` (shell.c:312 only skips the byte
after a backslash; it never removes the backslash). -/
theorem escaped_space_token_counterexample :
    c3tokens = [[97, 92, 32, 98], [99]] ∧
    c3tokens ≠ [[97, 32, 98], [99]] := by decide

/-- Claim C3 amended: tokenising the accepted line `a\ b c` yields exactly
two tokens, `a\ b` (the escaped space does not split the token and the
backslash byte is kept) and `c`. -/
theorem escaped_space_tokens :
    c3tokens.length = 2 ∧ c3tokens = [[97, 92, 32, 98], [99]] := by decide

/-! ### Claim C6: immediate-duplicate suppression in the history ring -/

theorem shellHistoryAdd_dup (cfg : ShellConfig) (t : SHELL_TypeDef)
    (hg : cstr (historyReadInt t.history ((t.historyFlag : Int) - 1)) = cstr t.buffer) :
    shellHistoryAdd cfg t = { t with historyOffset := 0 } := by
  unfold shellHistoryAdd
  simp only [historyCmpIndex]
  rw [if_pos hg]

theorem shellHistoryAdd_store (cfg : ShellConfig) (t : SHELL_TypeDef)
    (hg : ¬ cstr (historyReadInt t.history ((t.historyFlag : Int) - 1)) = cstr t.buffer)
    (hne : cstr t.buffer ≠ [])
    (hnw : t.historyFlag + 1 < cfg.histMax) :
    shellHistoryAdd cfg t =
      { t with
          historyOffset := 0
          history := t.history.set t.historyFlag
            (listWrite (t.history.getD t.historyFlag []) 0 (cstr t.buffer ++ [0]))
          historyCount := if t.historyCount + 1 > cfg.histMax then cfg.histMax
            else t.historyCount + 1
          historyFlag := t.historyFlag + 1 } := by
  unfold shellHistoryAdd shellStringCopy
  simp only [historyCmpIndex]
  rw [if_neg hg]
  have h1 : (cstr t.buffer).length ≠ 0 := by simpa [List.length_eq_zero] using hne
  rw [if_pos h1, if_neg (show ¬ t.historyFlag + 1 ≥ cfg.histMax by omega)]

theorem historyReadInt_in (h : List (List Nat)) (n : Nat) (hlt : n < h.length) :
    historyReadInt h (n : Int) = h.getD n [] := by
  unfold historyReadInt
  rw [if_pos ⟨by omega, by exact_mod_cast hlt⟩]
  simp

/-- Claim C6: committing the same non-empty line twice in a row leaves
`historyCount` and `historyFlag` unchanged by the second commit.  The
hypotheses keep both duplicate checks inside the array (`1 ≤ historyFlag`
and no wrap, cf. the out-of-bounds first-commit read recorded with C9) and
require the line to fit in its history row. -/
theorem history_double_commit (cfg : ShellConfig) (s : SHELL_TypeDef)
    (_hflag1 : 1 ≤ s.historyFlag) (hflag2 : s.historyFlag + 1 < cfg.histMax)
    (hhlen : s.history.length = cfg.histMax)
    (hne : cstr s.buffer ≠ [])
    (hfit : (cstr s.buffer).length + 1 ≤ (s.history.getD s.historyFlag []).length) :
    (shellHistoryAdd cfg (shellHistoryAdd cfg s)).historyCount =
      (shellHistoryAdd cfg s).historyCount ∧
    (shellHistoryAdd cfg (shellHistoryAdd cfg s)).historyFlag =
      (shellHistoryAdd cfg s).historyFlag := by
  by_cases hdup : cstr (historyReadInt s.history ((s.historyFlag : Int) - 1)) = cstr s.buffer
  · rw [shellHistoryAdd_dup cfg s hdup]
    rw [shellHistoryAdd_dup cfg _ (by dsimp only; exact hdup)]
    exact ⟨rfl, rfl⟩
  · rw [shellHistoryAdd_store cfg s hdup hne hflag2]
    rw [shellHistoryAdd_dup cfg _ ?_]
    · exact ⟨rfl, rfl⟩
    · dsimp only
      have hidx : ((s.historyFlag + 1 : Nat) : Int) - 1 = ((s.historyFlag : Nat) : Int) := by
        push_cast
        ring
      rw [hidx, historyReadInt_in _ _ (by simp [List.length_set]; omega),
        getD_set_self _ _ _ _ (by omega)]
      exact cstr_copy _ _ (cstr_ne_zero s.buffer) hfit

/-- Configuration for the C6 witness (4-byte rows, 4 history rows). -/
def c6cfg : ShellConfig := ⟨4, 4⟩

/-- Concrete state for the C6 witness: line `a`, `historyFlag` 1. -/
def c6state : SHELL_TypeDef where
  command := [62]
  buffer := [97, 0, 0, 0]
  length := 1
  cursor := 1
  param := []
  history := List.replicate 4 (List.replicate 4 0)
  historyCount := 0
  historyFlag := 1
  historyOffset := 0
  inputMode := InputMode.normal
  tabFlag := false
  isActive := false
  commandBase := []

/-- Witness for C6 at the concrete instance. -/
theorem history_double_commit_witness :
    1 ≤ c6state.historyFlag ∧ c6state.historyFlag + 1 < c6cfg.histMax ∧
    c6state.history.length = c6cfg.histMax ∧ cstr c6state.buffer ≠ [] ∧
    (cstr c6state.buffer).length + 1 ≤ (c6state.history.getD c6state.historyFlag []).length ∧
    ((shellHistoryAdd c6cfg (shellHistoryAdd c6cfg c6state)).historyCount =
       (shellHistoryAdd c6cfg c6state).historyCount ∧
     (shellHistoryAdd c6cfg (shellHistoryAdd c6cfg c6state)).historyFlag =
       (shellHistoryAdd c6cfg c6state).historyFlag) :=
  ⟨by decide, by decide, by decide, by decide, by decide,
   history_double_commit c6cfg c6state (by decide) (by decide) (by decide)
     (by decide) (by decide)⟩

/-! ### Claim C7: Up-arrow escape sequence recalls the most recent entry -/

theorem shellHistory_up2 (cfg : ShellConfig) (t : SHELL_TypeDef)
    (hoff : t.historyOffset = 0) (hcount : t.historyCount = 2)
    (hflag : t.historyFlag = 2) (hM : 3 ≤ cfg.histMax)
    (hent : cstr (t.history.getD 1 []) ≠ []) :
    (shellHistory cfg t 0).1 =
      { t with
          historyOffset := -1
          buffer := listWrite t.buffer 0 (cstr (t.history.getD 1 []) ++ [0])
          length := (cstr (t.history.getD 1 [])).length
          cursor := (cstr (t.history.getD 1 [])).length } := by
  have hidx : (((2 : Int) + (cfg.histMax : Int) + -1) % (cfg.histMax : Int)).toNat = 1 := by
    have h2 : (2 : Int) + (cfg.histMax : Int) + -1 = 1 + (cfg.histMax : Int) * 1 := by
      ring
    rw [h2, Int.add_mul_emod_self_left, Int.emod_eq_of_lt (by omega) (by omega)]
    rfl
  have hent' : ¬ cstr (t.history[1]?.getD []) = [] := by simpa using hent
  unfold shellHistory shellHistoryShow shellStringCopy
  simp only [hoff, hcount, hflag]
  norm_num [hidx]
  rw [if_neg hent']

/-- Claim C7: delivering bytes `0x1B 0x5B 0x41` (Up arrow) to a shell in
Normal mode with `historyOffset = 0` and two committed history entries
(write index `historyFlag = 2`, `historyCount = 2`, ring capacity at least
3) returns the input mode to Normal and loads the most recent entry
(`history[1]`) into the buffer, with `cursor = length =` that entry's
length.  The entry must be non-empty and fit in the buffer, as entries
committed by the dispatcher always are. -/
theorem up_arrow_recalls_recent (cfg : ShellConfig) (s : SHELL_TypeDef)
    (hmode : s.inputMode = InputMode.normal)
    (hoff : s.historyOffset = 0)
    (hcount : s.historyCount = 2) (hflag : s.historyFlag = 2)
    (hM : 3 ≤ cfg.histMax)
    (hent : cstr (s.history.getD 1 []) ≠ [])
    (hfit : (cstr (s.history.getD 1 [])).length + 1 ≤ s.buffer.length) :
    (handler3 cfg [] s 27 91 65).inputMode = InputMode.normal ∧
    cstr (handler3 cfg [] s 27 91 65).buffer = cstr (s.history.getD 1 []) ∧
    (handler3 cfg [] s 27 91 65).length = (cstr (s.history.getD 1 [])).length ∧
    (handler3 cfg [] s 27 91 65).cursor = (handler3 cfg [] s 27 91 65).length := by
  have hs1 : (shellHandler cfg [] s 27).1 =
      { s with inputMode := InputMode.ansiEsc, tabFlag := false } := by
    unfold shellHandler
    rw [if_pos hmode]
    rfl
  have hs2 : (shellHandler cfg []
      ({ s with inputMode := InputMode.ansiEsc, tabFlag := false }) 91).1 =
      { s with inputMode := InputMode.ansiCsi, tabFlag := false } := rfl
  have hs3 := shellHistory_up2 cfg
    ({ s with inputMode := InputMode.ansiCsi, tabFlag := false })
    hoff hcount hflag hM hent
  have hs4 : (shellHandler cfg []
      ({ s with inputMode := InputMode.ansiCsi, tabFlag := false }) 65).1 =
      { (shellHistory cfg
          ({ s with inputMode := InputMode.ansiCsi, tabFlag := false }) 0).1 with
          inputMode := InputMode.normal
          tabFlag := false } := rfl
  rw [hs3] at hs4
  unfold handler3
  rw [hs1, hs2, hs4]
  refine ⟨rfl, ?_, rfl, rfl⟩
  exact cstr_copy _ _ (cstr_ne_zero _) hfit

/-- Configuration for the C7 witness (8-byte rows, 3 history rows). -/
def c7cfg : ShellConfig := ⟨8, 3⟩

/-- Concrete state for the C7 witness: entries `ls` then `top` committed,
empty current line. -/
def c7state : SHELL_TypeDef where
  command := [62]
  buffer := List.replicate 8 0
  length := 0
  cursor := 0
  param := []
  history := [[108, 115, 0, 0, 0, 0, 0, 0], [116, 111, 112, 0, 0, 0, 0, 0],
    List.replicate 8 0]
  historyCount := 2
  historyFlag := 2
  historyOffset := 0
  inputMode := InputMode.normal
  tabFlag := false
  isActive := false
  commandBase := []

/-- Witness for C7 at the concrete instance (recalls `top`). -/
theorem up_arrow_recalls_recent_witness :
    c7state.inputMode = InputMode.normal ∧ c7state.historyOffset = 0 ∧
    c7state.historyCount = 2 ∧ c7state.historyFlag = 2 ∧ 3 ≤ c7cfg.histMax ∧
    cstr (c7state.history.getD 1 []) ≠ [] ∧
    (cstr (c7state.history.getD 1 [])).length + 1 ≤ c7state.buffer.length ∧
    ((handler3 c7cfg [] c7state 27 91 65).inputMode = InputMode.normal ∧
     cstr (handler3 c7cfg [] c7state 27 91 65).buffer =
       cstr (c7state.history.getD 1 []) ∧
     (handler3 c7cfg [] c7state 27 91 65).length =
       (cstr (c7state.history.getD 1 [])).length ∧
     (handler3 c7cfg [] c7state 27 91 65).cursor =
       (handler3 c7cfg [] c7state 27 91 65).length) :=
  ⟨by decide, by decide, by decide, by decide, by decide, by decide, by decide,
   up_arrow_recalls_recent c7cfg c7state (by decide) (by decide) (by decide)
     (by decide) (by decide) (by decide) (by decide)⟩

/-! ### Claim C8: completion of `st` against status / stop / start -/

/-- Configuration for the C8 scenario (9-byte buffer, 2 history rows). -/
def c8cfg : ShellConfig := ⟨9, 2⟩

/-- Command table with exactly the names `status`, `stop`, `start` and
arbitrary descriptions. -/
def c8cmds (d1 d2 d3 : List Nat) : List SHELL_CommandTypeDef :=
  [⟨[115, 116, 97, 116, 117, 115], d1⟩, ⟨[115, 116, 111, 112], d2⟩,
   ⟨[115, 116, 97, 114, 116], d3⟩]

/-- Concrete state for C8: buffer `st`, cursor at end. -/
def c8state (d1 d2 d3 : List Nat) : SHELL_TypeDef where
  command := [62]
  buffer := [115, 116, 0, 0, 0, 0, 0, 0, 0]
  length := 2
  cursor := 2
  param := []
  history := [List.replicate 9 0, List.replicate 9 0]
  historyCount := 0
  historyFlag := 0
  historyOffset := 0
  inputMode := InputMode.normal
  tabFlag := false
  isActive := false
  commandBase := c8cmds d1 d2 d3

set_option maxHeartbeats 1000000 in
/-- Claim C8: with the command table containing exactly `status`, `stop`,
`start` and buffer `st`, completion lists all three commands (one help row
each, in table order, after a newline and followed by the prompt) and sets
the buffer back to `st` — the longest common prefix of the matches — with
`cursor = length = 2`. -/
theorem tab_st_completion (d1 d2 d3 : List Nat) :
    (shellTab c8cfg (c8state d1 d2 d3)).1.length = 2 ∧
    (shellTab c8cfg (c8state d1 d2 d3)).1.cursor = 2 ∧
    cstr (shellTab c8cfg (c8state d1 d2 d3)).1.buffer = [115, 116] ∧
    (shellTab c8cfg (c8state d1 d2 d3)).2 =
      [OutEvent.str (strBytes "\r\n")] ++
      shellDisplayItem (c8cmds d1 d2 d3) 0 ++
      shellDisplayItem (c8cmds d1 d2 d3) 1 ++
      shellDisplayItem (c8cmds d1 d2 d3) 2 ++
      [OutEvent.str (c8state d1 d2 d3).command, OutEvent.str [115, 116]] := by
  refine ⟨rfl, rfl, rfl, ?_⟩
  simp only [shellTab, shellTabLoop, shellDisplayItem, shellStringCompare,
    shellClearLine, shellDelete, shellStringCopy, listWrite, c8state, c8cmds,
    c8cfg, cstr, strBytes]
  norm_num

/-! ### Claim C9: the duplicate-check index at the first commit -/

/-- Configuration for the C9 scenario. -/
def c9cfg : ShellConfig := ⟨4, 2⟩

/-- The state reached from `shellInit` after typing `a` (one `shellHandler`
byte); its `historyFlag` is still 0, exactly the state in which pressing
Enter makes `shellHistoryAdd` run its duplicate check. -/
def c9state : SHELL_TypeDef :=
  (shellHandler c9cfg [] (shellInitState c9cfg [62] []) 97).1

/-- Claim C9 is violated by the code (code bug): at the first commit after
`shellInit` — here after typing `a`, with `historyFlag = 0` — the duplicate
check of `shellHistoryAdd` (shell.c:201) evaluates the index
`historyFlag - 1 = -1` and reads `history[-1]`, outside the valid range
`[0, SHELL_HISTORY_MAX_NUMBER)`: an out-of-bounds read, undefined behaviour
in the C. -/
theorem history_cmp_index_out_of_range :
    historyCmpIndex c9state = -1 ∧
    ¬ (0 ≤ historyCmpIndex c9state ∧
       historyCmpIndex c9state < (c9state.history.length : Int)) := by decide

end LetterShell
